import Mathlib

set_option linter.unusedVariables false
set_option linter.unreachableTactic false
set_option linter.unusedTactic false
set_option linter.unnecessarySeqFocus false

/-!
# Verification of the validex token-risk engine

Shallow embedding of the analytical core of the `validex` repository
(cluster analysis, risk aggregation, developer tracking, holder
distribution), together with proofs of the specification claims about it.

Conventions of the embedding:
* ledger addresses and transaction signatures are `String`s;
* JavaScript `number` values are modelled as exact rationals `ℚ`
  (the spec-level properties treat arithmetic as exact); the single place
  where the source can produce the IEEE value `NaN` (a division by zero in
  the Gini computation) is modelled explicitly with `Option`;
* JavaScript `bigint` token balances are `ℕ` (token amounts are
  non-negative integer strings on chain);
* fallible network fetches appear as explicit `Option`-valued inputs:
  `none` models the thrown/`null` outcome that the source catches.
-/

namespace Validex

/-! ## Cluster analysis (source: cluster-analysis module of `runTelegramBot.ts`)

Data model mirroring the `HolderInfo`, `FundingSource` and `ClusterInfo`
interfaces. -/

/-- `HolderInfo` from the cluster-analysis module. -/
structure HolderInfo where
  address : String
  balance : ℕ
  percentageOfSupply : ℚ
  rank : ℕ
deriving Repr, DecidableEq

/-- `FundingSource` from the cluster-analysis module. -/
structure FundingSource where
  funder : String
  signature : String
  timestamp : ℤ
  amount : ℚ
  isCEX : Bool
  isMixer : Bool
deriving Repr, DecidableEq

/-- The per-holder entry stored inside `ClusterInfo.holders`. -/
structure ClusterHolder where
  address : String
  balance : ℕ
  percentage : ℚ
  rank : ℕ
  fundingSignature : String
deriving Repr, DecidableEq

/-- `ClusterInfo` from the cluster-analysis module. -/
structure ClusterInfo where
  funder : String
  holders : List ClusterHolder
  totalBalance : ℕ
  totalPercentage : ℚ
  holderCount : ℕ
  isCEX : Bool
  isMixer : Bool
deriving Repr, DecidableEq

/-- The `CEX_WALLETS` set (known centralized-exchange wallets). -/
def CEX_WALLETS : List String :=
  [ "5tzFkiKscXHK5ZXCGbXZxdw7gTjjD1mBwuoFbhUvuAi9"
  , "CuieVDEDtLo7FypA9SbLM9saXFdb1dsshEkyErMqkRQq"
  , "3kvrNEkLiVZAh9u5URgdvMGqKZN7zMJj1D9bKrRMfT1Z"
  , "2AQdpHJ2JpcEgPiATUXjQxA8QmafFegfQwSLWSprPicm"
  , "GJRs4FwHtemZ5ZE9x3FNvJ8TMwitKTh21yxdRPqn7npE"
  , "H8sMJSCQxfKiFTCfDR3DUMLPwcRbM61LGFJ8N4dK3WjS"
  , "AC5RDfQFmDS1deWZos921JfqscXdByf8BKHs5ACWjtW2" ]

/-- The `MIXER_WALLETS` set (empty in the source). -/
def MIXER_WALLETS : List String := []

/-- `isCEXWallet`: membership in the known-exchange set. -/
def isCEXWallet (address : String) : Bool := decide (address ∈ CEX_WALLETS)

/-- `isMixerWallet`: membership in the known-mixer set. -/
def isMixerWallet (address : String) : Bool := decide (address ∈ MIXER_WALLETS)

/-- A fresh cluster created for a funder the first time one of its funded
holders is encountered (`clusters.set(funder, {...})` in
`groupHoldersByFunder`). -/
def emptyCluster (funding : FundingSource) : ClusterInfo :=
  { funder := funding.funder
  , holders := []
  , totalBalance := 0
  , totalPercentage := 0
  , holderCount := 0
  , isCEX := funding.isCEX
  , isMixer := funding.isMixer }

/-- The mutation performed on a cluster for one holder inside the loop of
`groupHoldersByFunder` (push the member, accumulate balance, percentage and
count). -/
def addHolderToCluster (c : ClusterInfo) (h : HolderInfo) (funding : FundingSource) :
    ClusterInfo :=
  { c with
    holders := c.holders ++
      [{ address := h.address
       , balance := h.balance
       , percentage := h.percentageOfSupply
       , rank := h.rank
       , fundingSignature := funding.signature }]
  , totalBalance := c.totalBalance + h.balance
  , totalPercentage := c.totalPercentage + h.percentageOfSupply
  , holderCount := c.holderCount + 1 }

/-- Insertion-ordered update of the `clusters` map for one holder with a
resolved funding source: update the cluster keyed by the funder, creating it
at the end if absent (a JavaScript `Map` preserves insertion order). -/
def updateClusters : List ClusterInfo → HolderInfo → FundingSource → List ClusterInfo
  | [], h, f => [addHolderToCluster (emptyCluster f) h f]
  | c :: rest, h, f =>
    if c.funder = f.funder then addHolderToCluster c h f :: rest
    else c :: updateClusters rest h f

/-- One iteration of the `for (const holder of holders)` loop of
`groupHoldersByFunder`: holders without a resolved funding source are
skipped (`if (!funding) continue`). -/
def clusterStep (fundingSources : String → Option FundingSource)
    (acc : List ClusterInfo) (h : HolderInfo) : List ClusterInfo :=
  match fundingSources h.address with
  | none => acc
  | some f => updateClusters acc h f

/-- The `clusters` map of `groupHoldersByFunder` after the loop, as an
insertion-ordered list. -/
def buildClusters (holders : List HolderInfo)
    (fundingSources : String → Option FundingSource) : List ClusterInfo :=
  holders.foldl (clusterStep fundingSources) []

/-- Stable descending insertion (by `totalPercentage`) used to model the
final `sort((a, b) => b.totalPercentage - a.totalPercentage)`. -/
def insertDesc (c : ClusterInfo) : List ClusterInfo → List ClusterInfo
  | [] => [c]
  | d :: rest =>
    if d.totalPercentage < c.totalPercentage then c :: d :: rest
    else d :: insertDesc c rest

/-- Stable descending sort by `totalPercentage`. -/
def sortByPercentageDesc (cs : List ClusterInfo) : List ClusterInfo :=
  cs.foldl (fun acc c => insertDesc c acc) []

/-- `groupHoldersByFunder` (the Cluster Grouper): one cluster per distinct
funder among holders with a resolved funding source, sorted descending by
aggregate percentage.  The `totalSupply` argument of the source function is
unused there and omitted here. -/
def groupHoldersByFunder (holders : List HolderInfo)
    (fundingSources : String → Option FundingSource) : List ClusterInfo :=
  sortByPercentageDesc (buildClusters holders fundingSources)

/-- `identifySuspiciousClusters`: at least two holders, funder neither a
known exchange nor a known mixer, and at least 5% of supply. -/
def identifySuspiciousClusters (clusters : List ClusterInfo) : List ClusterInfo :=
  clusters.filter (fun c =>
    decide (2 ≤ c.holderCount) && !c.isCEX && !c.isMixer &&
      decide ((5 : ℚ) ≤ c.totalPercentage))

/-- Cluster-analysis risk levels. -/
inductive ClusterRiskLevel where
  | Low
  | Medium
  | High
  | Critical
deriving Repr, DecidableEq

/-- `calculateRiskLevel` of the cluster-analysis module.  The second
argument (`totalPercentage`) is accepted and ignored, as in the source; the
level is decided by the first (largest) suspicious cluster. -/
def calculateRiskLevel (suspiciousClusters : List ClusterInfo)
    (totalPercentage : ℚ) : ClusterRiskLevel :=
  match suspiciousClusters with
  | [] => .Low
  | largestCluster :: _ =>
    if largestCluster.totalPercentage > 30 then .Critical
    else if largestCluster.totalPercentage > 20 then .High
    else if largestCluster.totalPercentage > 10 then .Medium
    else .Low

/-- Numeric severity of a cluster risk level, for stating monotonicity. -/
def clusterRiskRank : ClusterRiskLevel → ℕ
  | .Low => 0
  | .Medium => 1
  | .High => 2
  | .Critical => 3

/-- Addresses of the members of a cluster. -/
def memberAddresses (c : ClusterInfo) : List String := c.holders.map (·.address)

/-- Look up the cluster keyed by funder `g`. -/
def findCluster (cs : List ClusterInfo) (g : String) : Option ClusterInfo :=
  cs.find? (fun c => decide (c.funder = g))

/-- Member addresses of the cluster keyed by `g` (empty if absent). -/
def clusterMembers (cs : List ClusterInfo) (g : String) : List String :=
  match findCluster cs g with
  | some c => memberAddresses c
  | none => []

/-- Whether holder `h` has a resolved funding source whose funder is `g`. -/
def fundsBy (fundingSources : String → Option FundingSource) (g : String)
    (h : HolderInfo) : Bool :=
  match fundingSources h.address with
  | some f => decide (f.funder = g)
  | none => false

/-- The funder key list of a cluster list. -/
def funderKeys (cs : List ClusterInfo) : List String := cs.map (·.funder)

/-! ## Risk aggregation (source: `auditor.ts` and `config.ts`) -/

/-- One authority entry of `AuthorityStatus`. -/
structure AuthorityInfo where
  isActive : Bool
  address : Option String
deriving Repr, DecidableEq

/-- `AuthorityStatus` from `types.ts`. -/
structure AuthorityStatus where
  mintAuthority : AuthorityInfo
  freezeAuthority : AuthorityInfo
deriving Repr, DecidableEq

/-- `MetadataInfo` from `types.ts`. -/
structure MetadataInfo where
  isMutable : Bool
  updateAuthority : Option String
  uri : Option String
deriving Repr, DecidableEq

/-- The liquidity risk tiers of `LiquidityInfo.riskLevel`. -/
inductive LiquidityRiskLevel where
  | Safe
  | Medium
  | High
  | Critical
deriving Repr, DecidableEq

/-- The part of `LiquidityInfo` consumed by `calculateRiskScore`. -/
structure LiquidityInfo where
  hasLiquidity : Bool
  riskLevel : LiquidityRiskLevel
  warnings : List String
deriving Repr, DecidableEq

/-- `RiskAssessment.level` values. -/
inductive AuditRiskLevel where
  | Safe
  | Caution
  | RugPullRisk
deriving Repr, DecidableEq

/-- `RiskAssessment` from `types.ts`.  The score is an integer before the
floor is applied, so it is modelled in `ℤ`. -/
structure RiskAssessment where
  score : ℤ
  level : AuditRiskLevel
  warnings : List String
deriving Repr, DecidableEq

/-- The fixed penalty amounts of `config.riskScoring.penalties`. -/
structure RiskPenalties where
  mintAuthorityActive : ℤ
  freezeAuthorityActive : ℤ
  metadataMutable : ℤ
deriving Repr, DecidableEq

/-- The level thresholds of `config.riskScoring.thresholds`. -/
structure RiskThresholds where
  safe : ℤ
  caution : ℤ
deriving Repr, DecidableEq

/-- `config.riskScoring` from `config.ts`. -/
structure RiskScoringConfig where
  initialScore : ℤ
  penalties : RiskPenalties
  thresholds : RiskThresholds
deriving Repr, DecidableEq

/-- The concrete configuration values of `config.ts`. -/
def configRiskScoring : RiskScoringConfig :=
  { initialScore := 100
  , penalties :=
    { mintAuthorityActive := 50
    , freezeAuthorityActive := 20
    , metadataMutable := 10 }
  , thresholds :=
    { safe := 80
    , caution := 50 } }

/-- The tiered liquidity penalty applied inside `calculateRiskScore`. -/
def liquidityPenalty : LiquidityRiskLevel → ℤ
  | .Critical => 40
  | .High => 25
  | .Medium => 10
  | .Safe => 0

/-- `calculateRiskScore` from `auditor.ts`: baseline 100, fixed penalties
for active mint authority, active freeze authority and mutable metadata, a
tiered penalty for the optional liquidity signal, a floor at 0, and level
thresholds at 80 and 50.  Every check appends a warning in both outcomes. -/
def calculateRiskScore (authorityStatus : AuthorityStatus)
    (metadataInfo : MetadataInfo) (liquidityInfo : Option LiquidityInfo) :
    RiskAssessment :=
  let score0 := configRiskScoring.initialScore
  let score1 :=
    if authorityStatus.mintAuthority.isActive then
      score0 - configRiskScoring.penalties.mintAuthorityActive
    else score0
  let warnings1 :=
    if authorityStatus.mintAuthority.isActive then
      ["CRITICAL: Mint Authority is active - Developer can mint unlimited tokens, diluting supply"]
    else ["SAFE: Mint Authority has been revoked - Supply is fixed"]
  let score2 :=
    if authorityStatus.freezeAuthority.isActive then
      score1 - configRiskScoring.penalties.freezeAuthorityActive
    else score1
  let warnings2 := warnings1 ++
    (if authorityStatus.freezeAuthority.isActive then
      ["WARNING: Freeze Authority is active - Developer can freeze token accounts"]
    else ["SAFE: Freeze Authority has been revoked - Accounts cannot be frozen"])
  let score3 :=
    if metadataInfo.isMutable then
      score2 - configRiskScoring.penalties.metadataMutable
    else score2
  let warnings3 := warnings2 ++
    (if metadataInfo.isMutable then
      ["CAUTION: Metadata is mutable - Name, symbol, or image can be changed"]
    else ["SAFE: Metadata is immutable - Token identity is locked"])
  let score4 :=
    match liquidityInfo with
    | some liq => score3 - liquidityPenalty liq.riskLevel
    | none => score3
  let warnings4 := warnings3 ++
    (match liquidityInfo with
    | some liq => liq.warnings
    | none => [])
  let score := max 0 score4
  let level : AuditRiskLevel :=
    if score ≥ configRiskScoring.thresholds.safe then .Safe
    else if score ≥ configRiskScoring.thresholds.caution then .Caution
    else .RugPullRisk
  { score := score, level := level, warnings := warnings4 }

/-- The on-chain Metaplex metadata fields read by `checkMetadata`. -/
structure MetaplexMetadata where
  isMutable : Bool
  updateAuthority : String
  uri : String
deriving Repr, DecidableEq

/-- `checkMetadata` from `auditor.ts`, as a function of the outcome of the
`fetchMetadata` call: on success the fetched fields are returned; when the
fetch throws (`none`), the catch block returns
`{ isMutable: false, updateAuthority: null, uri: undefined }`. -/
def checkMetadata (fetched : Option MetaplexMetadata) : MetadataInfo :=
  match fetched with
  | some m =>
    { isMutable := m.isMutable
    , updateAuthority := some m.updateAuthority
    , uri := some m.uri }
  | none =>
    { isMutable := false
    , updateAuthority := none
    , uri := none }

/-! ## Developer tracker (source: `developerTracker.ts`) -/

/-- The Pump.fun shared mint authority. -/
def PUMPFUN_MINT_AUTHORITY : String := "TSLvdd1pWpHVjahSpsvCXUbgwsL3JAcvokwaKt1eokM"

/-- The Pump.fun program ids. -/
def PUMPFUN_PROGRAM_IDS : List String :=
  [ "6EF8rrecthR5Dkzon8Nwu78hRvfCKubJ14M5uBEwF6P"
  , "FoaFt2Dtz58RA6DPjbRb9t9z8sLJRChiGFTv21EfaseZ" ]

/-- Token lifecycle status of `DeployedToken.status`. -/
inductive TokenStatus where
  | Active
  | Rugged
  | Dead
deriving Repr, DecidableEq

/-- `DeployedToken` from `developerTracker.ts`. -/
structure DeployedToken where
  address : String
  signature : String
  timestamp : ℤ
  isRugged : Bool
  liquidityValue : ℚ
  name : Option String
  symbol : Option String
  age : Option ℤ
  status : TokenStatus
deriving Repr, DecidableEq

/-- The record literal with which `analyzeTransactionForTokenCreation`
creates a discovered token: `isRugged: false`, `liquidityValue: 0`,
`status: Active` (both the SPL and the Pump.fun discovery branch build
exactly this shape). -/
def newDeployedToken (address signature : String) (blockTime : ℤ)
    (name symbol : Option String) (age : ℤ) : DeployedToken :=
  { address := address
  , signature := signature
  , timestamp := blockTime
  , isRugged := false
  , liquidityValue := 0
  , name := name
  , symbol := symbol
  , age := some age
  , status := .Active }

/-- The mint fields read by the liquidity check (`getMint` result). -/
structure MintState where
  mintAuthority : Option String
  supply : ℕ
deriving Repr, DecidableEq

/-- The data fetched for one token inside `checkTokensLiquidity`:
the mint state and the amounts of the largest token accounts
(`getTokenLargestAccounts`, largest first). -/
structure LiquidityFetch where
  mintInfo : MintState
  largestAmounts : List ℕ
deriving Repr, DecidableEq

/-- The classification body of `checkTokensLiquidity` for one token, given
the fetched data: active non-Pump.fun mint authority, zero supply, an empty
largest-accounts list, or a top holder above 95% mark the token `Rugged`;
a top holder above 80% (and at most 95%) marks it `Dead`; otherwise
`Active`. -/
def classifyTokenLiquidity (mintInfo : MintState) (largestAmounts : List ℕ)
    (t : DeployedToken) : DeployedToken :=
  if mintInfo.mintAuthority ≠ none ∧
      mintInfo.mintAuthority ≠ some PUMPFUN_MINT_AUTHORITY then
    { t with isRugged := true, liquidityValue := 0, status := .Rugged }
  else if mintInfo.supply = 0 then
    { t with isRugged := true, liquidityValue := 0, status := .Rugged }
  else
    match largestAmounts with
    | [] => { t with isRugged := true, liquidityValue := 0, status := .Rugged }
    | topHolderAmount :: _ =>
      let topHolderPercentage : ℚ :=
        (topHolderAmount : ℚ) / (mintInfo.supply : ℚ) * 100
      if topHolderPercentage > 95 then
        { t with isRugged := true, liquidityValue := 0, status := .Rugged }
      else if topHolderPercentage > 80 then
        { t with status := .Dead, liquidityValue := 1 }
      else
        { t with status := .Active, liquidityValue := 10 }

/-- One token step of `checkTokensLiquidity`, including the surrounding
`try`/`catch`: when the fetch (after all retries) fails (`none`), the catch
block assigns `status: Dead` and `liquidityValue: 0`, leaving `isRugged`
untouched. -/
def checkTokenLiquidityStep (fetch : Option LiquidityFetch)
    (t : DeployedToken) : DeployedToken :=
  match fetch with
  | some d => classifyTokenLiquidity d.mintInfo d.largestAmounts t
  | none => { t with status := .Dead, liquidityValue := 0 }

/-- The rugged test used by `analyzeDeployer` when counting
(rugged flag set, or status equal to Rugged). -/
def countsAsRugged (t : DeployedToken) : Bool :=
  t.isRugged || decide (t.status = TokenStatus.Rugged)

/-- `ruggedCount` as computed in `analyzeDeployer`. -/
def ruggedCount (tokensDeployed : List DeployedToken) : ℕ :=
  (tokensDeployed.filter countsAsRugged).length

/-- `winRate` as computed in `analyzeDeployer`:
`(total - rugged) / total * 100`, and `100` for an empty history. -/
def winRate (tokensDeployed : List DeployedToken) : ℚ :=
  if 0 < tokensDeployed.length then
    (((tokensDeployed.length : ℚ) - (ruggedCount tokensDeployed : ℚ)) /
      (tokensDeployed.length : ℚ)) * 100
  else 100

/-! ### Deployer identification (`findDeployer`) -/

/-- One entry of `transaction.message.accountKeys`. -/
structure AccountKey where
  pubkey : String
  signer : Bool
  writable : Bool
deriving Repr, DecidableEq

/-- The instruction fields read by `findDeployer` (only the program id). -/
structure TxInstruction where
  programId : String
deriving Repr, DecidableEq

/-- A parsed transaction as consumed by `findDeployer`. -/
structure ParsedTx where
  accountKeys : List AccountKey
  instructions : List TxInstruction
deriving Repr, DecidableEq

/-- One entry of a `getSignaturesForAddress` result. -/
structure SigInfo where
  signature : String
  blockTime : Option ℤ
deriving Repr, DecidableEq

/-- The ledger responses `findDeployer` can observe for one mint.
`mintAuthority = none` models both `getMint` calls throwing;
`some a` models a successful fetch with authority `a`.
`signatures = none` models `getSignaturesForAddress` throwing (the outer
catch then returns `null`).  `parsedTx` gives the `getParsedTransaction`
result per signature (`none` = `null`/throw), and `pumpfunCreator` the
Pump.fun creator-lookup API result (`none` = lookup failed or absent). -/
structure DeployerEnv where
  mintAuthority : Option (Option String)
  signatures : Option (List SigInfo)
  parsedTx : String → Option ParsedTx
  pumpfunCreator : Option String

/-- Method 2 of `findDeployer`: resolve the deployer from the oldest
transaction touching the mint.  Returns `none` when the signature scan
throws, when no signature exists, when the parsed creation transaction
cannot be fetched, or when it has no account keys (the `accountKeys[0]`
access would throw and be caught). -/
def findDeployerFromCreationTx (env : DeployerEnv) : Option String :=
  match env.signatures with
  | none => none
  | some signatures =>
    match signatures.getLast? with
    | none => none
    | some creationSignature =>
      match env.parsedTx creationSignature.signature with
      | none => none
      | some tx =>
        let isPumpfun := tx.instructions.any
          (fun ix => PUMPFUN_PROGRAM_IDS.contains ix.programId)
        if isPumpfun then
          match env.pumpfunCreator with
          | some apiCreator => some apiCreator
          | none =>
            match tx.accountKeys.find? (·.signer) with
            | some account => some account.pubkey
            | none => (tx.accountKeys.head?).map (·.pubkey)
        else
          (tx.accountKeys.head?).map (·.pubkey)

/-- `findDeployer` from `developerTracker.ts`: an active mint authority
different from the Pump.fun shared authority is returned directly
(Method 1); otherwise the deployer is resolved from the creation
transaction (Method 2). -/
def findDeployer (env : DeployerEnv) : Option String :=
  match env.mintAuthority with
  | some (some authority) =>
    if authority ≠ PUMPFUN_MINT_AUTHORITY then some authority
    else findDeployerFromCreationTx env
  | _ => findDeployerFromCreationTx env

/-! ### Retry helper (`retryWithBackoff`, two variants) -/

/-- A thrown JavaScript error, reduced to its message. -/
structure JSError where
  message : String
deriving Repr, DecidableEq

/-- Whether `pattern` occurs at the start of `text`. -/
def matchesAt : List Char → List Char → Bool
  | [], _ => true
  | _ :: _, [] => false
  | p :: ps, c :: cs => decide (p = c) && matchesAt ps cs

/-- Whether `pattern` occurs contiguously anywhere in `text`. -/
def occursIn (pattern : List Char) : List Char → Bool
  | [] => pattern.isEmpty
  | c :: cs => matchesAt pattern (c :: cs) || occursIn pattern cs

/-- `error.message?.includes(needle)`. -/
def messageIncludes (e : JSError) (needle : String) : Bool :=
  occursIn needle.data e.message.data

/-- The rate-limit test shared by both retry helpers
(message mentioning 429 or Too Many Requests). -/
def isRateLimitError (e : JSError) : Bool :=
  messageIncludes e "429" || messageIncludes e "Too Many Requests"

/-- The timeout test of the cluster-analysis retry helper
(message mentioning timeout or ETIMEDOUT). -/
def isTimeoutError (e : JSError) : Bool :=
  messageIncludes e "timeout" || messageIncludes e "ETIMEDOUT"

/-- The retry loop shared by both `retryWithBackoff` variants.  `fn i` is
the outcome of attempt `i`; `retryOn` decides which errors are retried;
`fuel` is the number of attempts remaining.  When the loop runs out of
attempts, the last error is rethrown (`throw lastError`).  The `fuel = 0`
base case models entering the source with `maxRetries = 0`, where the loop
body never runs and the final `throw lastError!` throws an undefined
error. -/
def retryLoop (retryOn : JSError → Bool) (fn : ℕ → Except JSError α) :
    ℕ → ℕ → Except JSError α
  | _, 0 => Except.error { message := "" }
  | i, Nat.succ fuel =>
    match fn i with
    | Except.ok v => Except.ok v
    | Except.error e =>
      if retryOn e then
        match fuel with
        | 0 => Except.error e
        | Nat.succ _ => retryLoop retryOn fn (i + 1) fuel
      else Except.error e

/-- `retryWithBackoff` of `developerTracker.ts`: retries only rate-limit
errors; every other error (including timeouts) is rethrown immediately. -/
def retryWithBackoffTracker (fn : ℕ → Except JSError α) (maxRetries : ℕ) :
    Except JSError α :=
  retryLoop isRateLimitError fn 0 maxRetries

/-- `retryWithBackoff` of the cluster-analysis module: retries rate-limit
errors and timeout errors; every other error is rethrown immediately. -/
def retryWithBackoffCluster (fn : ℕ → Except JSError α) (maxRetries : ℕ) :
    Except JSError α :=
  retryLoop (fun e => isRateLimitError e || isTimeoutError e) fn 0 maxRetries

/-! ### Gini coefficient (source: `holderDistribution.ts`) -/

/-- Stable ascending insertion used to model `sort((a, b) => a - b)`. -/
def insertAsc (x : ℚ) : List ℚ → List ℚ
  | [] => [x]
  | y :: rest => if x < y then x :: y :: rest else y :: insertAsc x rest

/-- Stable ascending sort of the balance list. -/
def sortAsc (l : List ℚ) : List ℚ :=
  l.foldl (fun acc x => insertAsc x acc) []

/-- The loop of `calculateGiniCoefficient` accumulating
`giniSum += (2 * (i + 1) - n - 1) * sorted[i]`, with `i` starting at 0. -/
def giniSumAux (n : ℚ) : List ℚ → ℚ → ℚ
  | [], _ => 0
  | x :: rest, i => (2 * (i + 1) - n - 1) * x + giniSumAux n rest (i + 1)

/-- `calculateGiniCoefficient` from `holderDistribution.ts`.  The result is
`giniSum / (n * cumulativeWealth)` clamped to `[0, 1]`; when
`n * cumulativeWealth` is zero the division in the source produces the IEEE
value `NaN`, which `Math.min`/`Math.max` propagate — that outcome is
modelled as `none`. -/
def calculateGiniCoefficient (balances : List ℚ) : Option ℚ :=
  if balances.length = 0 then some 0
  else
    let sorted := sortAsc balances
    let n : ℚ := (sorted.length : ℚ)
    let cumulativeWealth := sorted.sum
    let giniSum := giniSumAux n sorted 0
    if n * cumulativeWealth = 0 then none
    else some (max 0 (min 1 (giniSum / (n * cumulativeWealth))))

/-- The Rugged condition exactly as the spec words it for claim C3 (for
comparison with the source-derived `classifyTokenLiquidity`): the mint
authority is still active and is not the shared-launch authority, or the
total supply is zero, or the largest single holder controls more than 95%
of supply. -/
def specC3RuggedCondition (mintInfo : MintState) (largestAmounts : List ℕ) : Prop :=
  (mintInfo.mintAuthority ≠ none ∧
    mintInfo.mintAuthority ≠ some PUMPFUN_MINT_AUTHORITY) ∨
  mintInfo.supply = 0 ∨
  (∃ top rest, largestAmounts = top :: rest ∧
    (top : ℚ) / (mintInfo.supply : ℚ) * 100 > 95)

/-- A concrete attempt sequence that fails with a timeout error once and
then succeeds. -/
def timeoutThenOk : ℕ → Except JSError ℕ :=
  fun i => if i = 0 then Except.error { message := "timeout" } else Except.ok 42

/-- A concrete attempt sequence that fails with a rate-limit error once
and then succeeds. -/
def rateLimitThenOk : ℕ → Except JSError ℕ :=
  fun i => if i = 0 then Except.error { message := "HTTP 429" } else Except.ok 7

/-! ## Claim C1: the Cluster Grouper partitions resolved holders -/
/-- Adding a holder leaves the cluster key unchanged. -/
lemma addHolderToCluster_funder (c : ClusterInfo) (h : HolderInfo) (f : FundingSource) :
    (addHolderToCluster c h f).funder = c.funder := rfl

/-- A fresh cluster is keyed by its funder. -/
lemma emptyCluster_funder (f : FundingSource) :
    (emptyCluster f).funder = f.funder := rfl

/-- Adding a holder appends its address to the membership. -/
lemma memberAddresses_addHolder (c : ClusterInfo) (h : HolderInfo) (f : FundingSource) :
    memberAddresses (addHolderToCluster c h f) = memberAddresses c ++ [h.address] := by
  simp [memberAddresses, addHolderToCluster]

/-- Unfolding `findCluster` over a cons. -/
lemma findCluster_cons (c : ClusterInfo) (cs : List ClusterInfo) (g : String) :
    findCluster (c :: cs) g = if c.funder = g then some c else findCluster cs g := by
  by_cases h : c.funder = g
  · simp [findCluster, List.find?_cons_of_pos, h]
  · simp [findCluster, List.find?_cons_of_neg, h]

/-- After an update, the cluster of that funder is the updated (or fresh)
cluster. -/
lemma findCluster_updateClusters_self (cs : List ClusterInfo) (h : HolderInfo)
    (f : FundingSource) :
    findCluster (updateClusters cs h f) f.funder =
      some (addHolderToCluster ((findCluster cs f.funder).getD (emptyCluster f)) h f) := by
  induction cs with
  | nil =>
    simp [updateClusters, findCluster_cons, findCluster, addHolderToCluster_funder,
      emptyCluster]
  | cons c rest ih =>
    by_cases hc : c.funder = f.funder
    · simp [updateClusters, hc, findCluster_cons, addHolderToCluster_funder]
    · simp only [updateClusters, if_neg hc]
      rw [findCluster_cons, if_neg hc, findCluster_cons, if_neg hc, ih]

/-- An update for funder `f` leaves the cluster of every other funder
untouched. -/
lemma findCluster_updateClusters_other (cs : List ClusterInfo) (h : HolderInfo)
    (f : FundingSource) (g : String) (hg : g ≠ f.funder) :
    findCluster (updateClusters cs h f) g = findCluster cs g := by
  induction cs with
  | nil =>
    show findCluster [addHolderToCluster (emptyCluster f) h f] g = findCluster [] g
    rw [findCluster_cons]
    rw [if_neg]
    rw [addHolderToCluster_funder, emptyCluster_funder]
    exact fun hh => hg hh.symm
  | cons c rest ih =>
    by_cases hc : c.funder = f.funder
    · simp only [updateClusters, if_pos hc]
      rw [findCluster_cons, findCluster_cons, addHolderToCluster_funder,
        if_neg (fun hh => hg (hh.symm.trans hc)),
        if_neg (fun hh => hg (hh.symm.trans hc))]
    · simp only [updateClusters, if_neg hc]
      rw [findCluster_cons, findCluster_cons, ih]

/-- An update appends the holder address to the membership of its funder. -/
lemma clusterMembers_updateClusters_self (cs : List ClusterInfo) (h : HolderInfo)
    (f : FundingSource) :
    clusterMembers (updateClusters cs h f) f.funder =
      clusterMembers cs f.funder ++ [h.address] := by
  unfold clusterMembers
  rw [findCluster_updateClusters_self]
  cases hf : findCluster cs f.funder with
  | none => simp [hf, memberAddresses, addHolderToCluster, emptyCluster]
  | some c => simp [memberAddresses_addHolder, hf]

/-- An update does not change the membership of any other funder. -/
lemma clusterMembers_updateClusters_other (cs : List ClusterInfo) (h : HolderInfo)
    (f : FundingSource) (g : String) (hg : g ≠ f.funder) :
    clusterMembers (updateClusters cs h f) g = clusterMembers cs g := by
  unfold clusterMembers
  rw [findCluster_updateClusters_other cs h f g hg]

/-- Loop invariant of `groupHoldersByFunder`: after processing `holders`,
the membership of funder `g` is the old membership followed by the
addresses of the processed holders funded by `g`. -/
lemma clusterMembers_foldl (fundingSources : String → Option FundingSource)
    (g : String) :
    ∀ (holders : List HolderInfo) (acc : List ClusterInfo),
      clusterMembers (holders.foldl (clusterStep fundingSources) acc) g =
        clusterMembers acc g ++
          ((holders.filter (fundsBy fundingSources g)).map (·.address)) := by
  intro holders
  induction holders with
  | nil => intro acc; simp
  | cons h rest ih =>
    intro acc
    rw [List.foldl_cons, ih]
    cases hf : fundingSources h.address with
    | none =>
      have hstep : clusterStep fundingSources acc h = acc := by
        simp [clusterStep, hf]
      have hfb : fundsBy fundingSources g h = false := by
        simp [fundsBy, hf]
      rw [hstep, List.filter_cons, hfb]
      simp
    | some f =>
      have hstep : clusterStep fundingSources acc h = updateClusters acc h f := by
        simp [clusterStep, hf]
      rw [hstep]
      by_cases hg : g = f.funder
      · subst hg
        have hfb : fundsBy fundingSources f.funder h = true := by
          simp [fundsBy, hf]
        rw [clusterMembers_updateClusters_self, List.filter_cons, hfb]
        simp
      · have hfb : fundsBy fundingSources g h = false := by
          simp only [fundsBy, hf, decide_eq_false_iff_not]
          exact fun hh => hg hh.symm
        rw [clusterMembers_updateClusters_other acc h f g hg, List.filter_cons, hfb]
        simp

/-- The membership of funder `g` in the built cluster map is exactly the
addresses of the holders funded by `g`, in order. -/
lemma clusterMembers_buildClusters (holders : List HolderInfo)
    (fundingSources : String → Option FundingSource) (g : String) :
    clusterMembers (buildClusters holders fundingSources) g =
      (holders.filter (fundsBy fundingSources g)).map (·.address) := by
  have := clusterMembers_foldl fundingSources g holders []
  simpa [buildClusters, clusterMembers, findCluster] using this

/-- Unfolding `funderKeys` over a cons. -/
lemma funderKeys_cons (c : ClusterInfo) (cs : List ClusterInfo) :
    funderKeys (c :: cs) = c.funder :: funderKeys cs := rfl

/-- An update either keeps the key list or appends the new funder. -/
lemma funderKeys_updateClusters (cs : List ClusterInfo) (h : HolderInfo)
    (f : FundingSource) :
    funderKeys (updateClusters cs h f) =
      if f.funder ∈ funderKeys cs then funderKeys cs
      else funderKeys cs ++ [f.funder] := by
  induction cs with
  | nil =>
    simp [updateClusters, funderKeys, addHolderToCluster_funder, emptyCluster_funder]
  | cons c rest ih =>
    by_cases hc : c.funder = f.funder
    · have hm : f.funder ∈ funderKeys (c :: rest) := by
        rw [funderKeys_cons]
        exact hc ▸ List.mem_cons_self _ _
      rw [if_pos hm]
      simp [updateClusters, hc, funderKeys, addHolderToCluster_funder]
    · have lhs : updateClusters (c :: rest) h f = c :: updateClusters rest h f := by
        simp [updateClusters, if_neg hc]
      rw [lhs, funderKeys_cons, ih, funderKeys_cons]
      by_cases hm : f.funder ∈ funderKeys rest
      · rw [if_pos hm, if_pos (List.mem_cons_of_mem _ hm)]
      · have hnm : f.funder ∉ c.funder :: funderKeys rest := by
          intro hmem
          rcases List.mem_cons.mp hmem with h1 | h2
          · exact hc h1.symm
          · exact hm h2
        rw [if_neg hm, if_neg hnm]
        simp

/-- Updates preserve distinctness of the funder keys. -/
lemma nodup_funderKeys_updateClusters (cs : List ClusterInfo) (h : HolderInfo)
    (f : FundingSource) (hnd : (funderKeys cs).Nodup) :
    (funderKeys (updateClusters cs h f)).Nodup := by
  rw [funderKeys_updateClusters]
  by_cases hm : f.funder ∈ funderKeys cs
  · rwa [if_pos hm]
  · rw [if_neg hm]
    simp [List.nodup_append, hnd, hm]

/-- The loop preserves distinctness of the funder keys. -/
lemma nodup_funderKeys_foldl (fundingSources : String → Option FundingSource) :
    ∀ (holders : List HolderInfo) (acc : List ClusterInfo),
      (funderKeys acc).Nodup →
      (funderKeys (holders.foldl (clusterStep fundingSources) acc)).Nodup := by
  intro holders
  induction holders with
  | nil => intro acc hacc; simpa
  | cons h rest ih =>
    intro acc hacc
    rw [List.foldl_cons]
    apply ih
    cases hf : fundingSources h.address with
    | none => simpa [clusterStep, hf]
    | some f =>
      simp only [clusterStep, hf]
      exact nodup_funderKeys_updateClusters _ _ _ hacc

/-- The built cluster map has one cluster per distinct funder. -/
lemma nodup_funderKeys_buildClusters (holders : List HolderInfo)
    (fundingSources : String → Option FundingSource) :
    (funderKeys (buildClusters holders fundingSources)).Nodup :=
  nodup_funderKeys_foldl fundingSources holders [] (by simp [funderKeys])

/-- A found cluster is a member keyed by the searched funder. -/
lemma findCluster_eq_some (cs : List ClusterInfo) (g : String) (c : ClusterInfo)
    (h : findCluster cs g = some c) : c ∈ cs ∧ c.funder = g := by
  refine ⟨List.mem_of_find?_eq_some h, ?_⟩
  have := List.find?_some h
  simpa using this

/-- With distinct keys, every member cluster is found under its own
funder. -/
lemma findCluster_of_mem (cs : List ClusterInfo) (c : ClusterInfo)
    (hnd : (funderKeys cs).Nodup) (hc : c ∈ cs) :
    findCluster cs c.funder = some c := by
  induction cs with
  | nil => simp at hc
  | cons d rest ih =>
    rw [funderKeys_cons] at hnd
    rcases List.mem_cons.mp hc with h1 | h2
    · subst h1
      rw [findCluster_cons, if_pos rfl]
    · have hcf : c.funder ∈ funderKeys rest := List.mem_map_of_mem _ h2
      have hdn : d.funder ≠ c.funder := by
        intro he
        exact (List.nodup_cons.mp hnd).1 (he ▸ hcf)
      rw [findCluster_cons, if_neg hdn]
      exact ih (List.nodup_cons.mp hnd).2 h2

/-- Membership characterization for every cluster of the built map. -/
lemma memberAddresses_of_mem_buildClusters (holders : List HolderInfo)
    (fundingSources : String → Option FundingSource) (c : ClusterInfo)
    (hc : c ∈ buildClusters holders fundingSources) :
    memberAddresses c =
      (holders.filter (fundsBy fundingSources c.funder)).map (·.address) := by
  have h1 := findCluster_of_mem _ c
    (nodup_funderKeys_buildClusters holders fundingSources) hc
  have h2 := clusterMembers_buildClusters holders fundingSources c.funder
  rw [clusterMembers, h1] at h2
  exact h2

/-- `fundsBy` unfolded. -/
lemma fundsBy_eq_true_iff (fundingSources : String → Option FundingSource)
    (g : String) (h : HolderInfo) :
    fundsBy fundingSources g h = true ↔
      ∃ f, fundingSources h.address = some f ∧ f.funder = g := by
  unfold fundsBy
  cases hf : fundingSources h.address <;> simp

/-- `insertDesc` permutes. -/
lemma insertDesc_perm (c : ClusterInfo) (l : List ClusterInfo) :
    List.Perm (insertDesc c l) (c :: l) := by
  induction l with
  | nil => exact List.Perm.refl _
  | cons d rest ih =>
    by_cases h : d.totalPercentage < c.totalPercentage
    · simp [insertDesc, h]
    · simp only [insertDesc, if_neg h]
      exact (List.Perm.cons d ih).trans (List.Perm.swap c d rest)

/-- The final sort is a permutation of the built cluster list. -/
lemma sortByPercentageDesc_perm (cs : List ClusterInfo) :
    List.Perm (sortByPercentageDesc cs) cs := by
  suffices h : ∀ (l acc : List ClusterInfo),
      List.Perm (l.foldl (fun acc c => insertDesc c acc) acc) (acc ++ l) by
    simpa [sortByPercentageDesc] using h cs []
  intro l
  induction l with
  | nil => intro acc; simp
  | cons c rest ih =>
    intro acc
    have step1 : (c :: rest).foldl (fun acc c => insertDesc c acc) acc
        = rest.foldl (fun acc c => insertDesc c acc) (insertDesc c acc) := rfl
    rw [step1]
    refine (ih (insertDesc c acc)).trans ?_
    refine ((insertDesc_perm c acc).append_right rest).trans ?_
    exact List.perm_middle.symm

/-- Upgrade a pairwise relation using membership of both elements. -/
lemma pairwise_imp_of_mem {α : Type} {R S : α → α → Prop} :
    ∀ {l : List α}, (∀ a b, a ∈ l → b ∈ l → R a b → S a b) →
      l.Pairwise R → l.Pairwise S := by
  intro l
  induction l with
  | nil => intro _ _; exact List.Pairwise.nil
  | cons a t ih =>
    intro H p
    rcases List.pairwise_cons.mp p with ⟨h1, h2⟩
    exact List.pairwise_cons.mpr
      ⟨fun b hb => H a b (List.mem_cons_self a t) (List.mem_cons_of_mem a hb) (h1 b hb),
       ih (fun x y hx hy => H x y (List.mem_cons_of_mem a hx) (List.mem_cons_of_mem a hy)) h2⟩

/-- **C1.** `groupHoldersByFunder` partitions exactly the holders with a
resolved funding source: an address is in some cluster iff it is the
address of an input holder with a resolved source; every such holder lies
in exactly one cluster — the one keyed by its funder; distinct clusters
have disjoint memberships; and holders without a resolved source appear in
no cluster. -/
theorem C1_groupHoldersByFunder_partition (holders : List HolderInfo)
    (fundingSources : String → Option FundingSource) :
    (∀ a : String,
      (∃ c ∈ groupHoldersByFunder holders fundingSources, a ∈ memberAddresses c) ↔
      (∃ h ∈ holders, h.address = a ∧ (fundingSources a).isSome)) ∧
    (∀ h ∈ holders, ∀ f, fundingSources h.address = some f →
      ∃ c ∈ groupHoldersByFunder holders fundingSources,
        c.funder = f.funder ∧ h.address ∈ memberAddresses c ∧
        ∀ c' ∈ groupHoldersByFunder holders fundingSources,
          h.address ∈ memberAddresses c' → c' = c) ∧
    List.Pairwise (fun c c' => ∀ a, a ∈ memberAddresses c → a ∉ memberAddresses c')
      (groupHoldersByFunder holders fundingSources) ∧
    (∀ h ∈ holders, fundingSources h.address = none →
      ∀ c ∈ groupHoldersByFunder holders fundingSources,
        h.address ∉ memberAddresses c) := by
  set cs := groupHoldersByFunder holders fundingSources with hcs
  have hperm : List.Perm cs (buildClusters holders fundingSources) :=
    sortByPercentageDesc_perm _
  have hmem : ∀ c, c ∈ cs ↔ c ∈ buildClusters holders fundingSources :=
    fun c => hperm.mem_iff
  have hnd : (funderKeys cs).Nodup := by
    have hp2 : List.Perm (funderKeys cs)
        (funderKeys (buildClusters holders fundingSources)) := hperm.map _
    exact hp2.nodup_iff.mpr (nodup_funderKeys_buildClusters holders fundingSources)
  have hchar : ∀ c ∈ cs, memberAddresses c =
      (holders.filter (fundsBy fundingSources c.funder)).map (·.address) :=
    fun c hc => memberAddresses_of_mem_buildClusters _ _ c ((hmem c).mp hc)
  have haddr : ∀ c ∈ cs, ∀ a ∈ memberAddresses c,
      ∃ h ∈ holders, h.address = a ∧ fundsBy fundingSources c.funder h = true := by
    intro c hc a ha
    rw [hchar c hc] at ha
    obtain ⟨h, hh, hha⟩ := List.mem_map.mp ha
    obtain ⟨hh1, hh2⟩ := List.mem_filter.mp hh
    exact ⟨h, hh1, hha, hh2⟩
  have hfunder : ∀ c ∈ cs, ∀ a ∈ memberAddresses c,
      ∃ f, fundingSources a = some f ∧ f.funder = c.funder := by
    intro c hc a ha
    obtain ⟨h, hh, hha, hfb⟩ := haddr c hc a ha
    obtain ⟨f, hf1, hf2⟩ := (fundsBy_eq_true_iff _ _ _).mp hfb
    exact ⟨f, hha ▸ hf1, hf2⟩
  have hexists : ∀ h ∈ holders, ∀ f, fundingSources h.address = some f →
      ∃ c ∈ cs, c.funder = f.funder ∧ h.address ∈ memberAddresses c := by
    intro h hh f hf
    have hmm : h.address ∈
        clusterMembers (buildClusters holders fundingSources) f.funder := by
      rw [clusterMembers_buildClusters]
      refine List.mem_map.mpr ⟨h, List.mem_filter.mpr ⟨hh, ?_⟩, rfl⟩
      rw [fundsBy_eq_true_iff]
      exact ⟨f, hf, rfl⟩
    rcases hfc : findCluster (buildClusters holders fundingSources) f.funder
      with _ | c
    · rw [clusterMembers, hfc] at hmm
      simp at hmm
    · obtain ⟨hcmem, hcf⟩ := findCluster_eq_some _ _ _ hfc
      refine ⟨c, (hmem c).mpr hcmem, hcf, ?_⟩
      rw [clusterMembers, hfc] at hmm
      exact hmm
  refine ⟨?_, ?_, ?_, ?_⟩
  · intro a
    constructor
    · rintro ⟨c, hc, ha⟩
      obtain ⟨h, hh, hha, hfb⟩ := haddr c hc a ha
      obtain ⟨f, hf1, hf2⟩ := (fundsBy_eq_true_iff _ _ _).mp hfb
      refine ⟨h, hh, hha, ?_⟩
      rw [← hha, hf1]
      rfl
    · rintro ⟨h, hh, hha, hsome⟩
      obtain ⟨f, hf⟩ := Option.isSome_iff_exists.mp hsome
      have hf' : fundingSources h.address = some f := by rw [hha]; exact hf
      obtain ⟨c, hc, _, hmemb⟩ := hexists h hh f hf'
      exact ⟨c, hc, hha ▸ hmemb⟩
  · intro h hh f hf
    obtain ⟨c, hc, hcf, hmemb⟩ := hexists h hh f hf
    refine ⟨c, hc, hcf, hmemb, ?_⟩
    intro c' hc' ha'
    obtain ⟨f', hf1', hf2'⟩ := hfunder c' hc' h.address ha'
    rw [hf] at hf1'
    injection hf1' with hff
    have hfun : c'.funder = c.funder := by
      rw [← hf2', ← hff]
      exact hcf.symm
    have hinj : ∀ ⦃x⦄, x ∈ cs → ∀ ⦃y⦄, y ∈ cs → x.funder = y.funder → x = y := by
      have hnd' : (cs.map (fun c => c.funder)).Nodup := hnd
      exact fun x hx y hy hxy => List.inj_on_of_nodup_map hnd' hx hy hxy
    exact hinj hc' hc hfun
  · have hne : List.Pairwise (fun c c' => c.funder ≠ c'.funder) cs := by
      have h1 : List.Pairwise (· ≠ ·) (cs.map (fun c => c.funder)) := hnd
      exact List.pairwise_map.mp h1
    refine pairwise_imp_of_mem ?_ hne
    intro c c' hc hc' hR a hac hac'
    obtain ⟨f1, e1, e1'⟩ := hfunder c hc a hac
    obtain ⟨f2, e2, e2'⟩ := hfunder c' hc' a hac'
    rw [e1] at e2
    injection e2 with e2
    exact hR (by rw [← e1', e2, e2'])
  · intro h hh hnone c hc ha
    obtain ⟨f, hf1, _⟩ := hfunder c hc h.address ha
    rw [hnone] at hf1
    exact Option.noConfusion hf1

/-- Concrete witness for C1: a holder with a resolved source lands in a
cluster. -/
theorem C1_witness :
    ∃ c ∈ groupHoldersByFunder [⟨"a1", 10, 10, 1⟩]
        (fun a => if a = "a1" then some ⟨"F", "s1", 0, 1, false, false⟩ else none),
      "a1" ∈ memberAddresses c :=
  ((C1_groupHoldersByFunder_partition [⟨"a1", 10, 10, 1⟩]
      (fun a => if a = "a1" then some ⟨"F", "s1", 0, 1, false, false⟩ else none)).1
    "a1").mpr ⟨⟨"a1", 10, 10, 1⟩, by simp, rfl, by simp⟩

/-! ## Claims C7 and C10: deployer resolution and fetch-failure handling -/
/-- **C7, counterexample.** A mint whose mint-authority check succeeds
(authority revoked) and whose signature scan succeeds with one signature,
but whose creation transaction cannot be fetched
(`getParsedTransaction` returns `null`): `findDeployer` returns `null`
although a transaction signature exists — contradicting the claim that a
deployer is returned whenever the scan succeeds with at least one
signature. -/
theorem C7_counterexample :
    findDeployer ⟨some none, some [⟨"sig1", some 0⟩], fun _ => none, none⟩ = none ∧
    (⟨some none, some [⟨"sig1", some 0⟩], fun _ => none, none⟩ : DeployerEnv).signatures =
      some [⟨"sig1", some 0⟩] ∧
    ([⟨"sig1", some 0⟩] : List SigInfo) ≠ [] :=
  ⟨rfl, rfl, by simp⟩

/-- **C7, amended.** `findDeployer` resolves some deployer wallet for
every mint whose signature scan succeeds with at least one signature,
*provided additionally* that the oldest (creation) transaction can be
fetched as a parsed transaction with at least one account key; it fails
only when the scan fails or is empty, the creation transaction cannot be
fetched, or that transaction has no account keys. -/
theorem C7_amended (env : DeployerEnv) (sigs : List SigInfo) (lastSig : SigInfo)
    (tx : ParsedTx) (h1 : env.signatures = some sigs)
    (h2 : sigs.getLast? = some lastSig)
    (h3 : env.parsedTx lastSig.signature = some tx)
    (h4 : tx.accountKeys ≠ []) :
    ∃ w, findDeployer env = some w := by
  obtain ⟨k, ks, hks⟩ : ∃ k ks, tx.accountKeys = k :: ks := by
    cases hak : tx.accountKeys with
    | nil => exact absurd hak h4
    | cons k ks => exact ⟨k, ks, rfl⟩
  have hcr : ∃ w, findDeployerFromCreationTx env = some w := by
    simp only [findDeployerFromCreationTx, h1, h2, h3]
    by_cases hpf : (tx.instructions.any
        (fun ix => PUMPFUN_PROGRAM_IDS.contains ix.programId)) = true
    · simp only [hpf, if_true]
      cases hapi : env.pumpfunCreator with
      | some c => exact ⟨c, rfl⟩
      | none =>
        cases hfind : tx.accountKeys.find? (·.signer) with
        | some account => exact ⟨account.pubkey, by simp [hfind]⟩
        | none => exact ⟨k.pubkey, by simp [hfind, hks]⟩
    · simp only [Bool.not_eq_true] at hpf
      simp only [hpf, Bool.false_eq_true, if_false, hks]
      exact ⟨k.pubkey, rfl⟩
  cases hma : env.mintAuthority with
  | none => simpa [findDeployer, hma] using hcr
  | some a =>
    cases a with
    | none => simpa [findDeployer, hma] using hcr
    | some authority =>
      by_cases hster : authority = PUMPFUN_MINT_AUTHORITY
      · simp only [findDeployer, hma, hster, ne_eq, not_true_eq_false, if_false]
        exact hcr
      · exact ⟨authority, by simp [findDeployer, hma, hster]⟩

/-- Concrete witness for C7 (amended): with a fetchable creation
transaction the deployer resolves. -/
theorem C7_witness :
    ∃ w, findDeployer ⟨some none, some [⟨"sig1", some 0⟩],
        (fun s => if s = "sig1"
          then some ⟨[⟨"FEEPAYER", true, true⟩], [⟨"prog"⟩]⟩ else none),
        none⟩ = some w :=
  C7_amended _ [⟨"sig1", some 0⟩] ⟨"sig1", some 0⟩
    ⟨[⟨"FEEPAYER", true, true⟩], [⟨"prog"⟩]⟩ rfl rfl rfl (by simp)

/-- Appending a token that does not count as rugged never lowers the win
rate. -/
lemma winRate_append_not_rugged (ts : List DeployedToken) (t' : DeployedToken)
    (hc : countsAsRugged t' = false) :
    winRate ts ≤ winRate (ts ++ [t']) := by
  have hrc : ruggedCount (ts ++ [t']) = ruggedCount ts := by
    simp [ruggedCount, List.filter_append, hc]
  have hr_le : ruggedCount ts ≤ ts.length := List.length_filter_le _ _
  rcases ts with _ | ⟨t0, ts'⟩
  · simp [winRate, ruggedCount, hc]
  · have hpos : 0 < (t0 :: ts').length := by simp
    have hpos' : 0 < ((t0 :: ts') ++ [t']).length := by simp
    rw [winRate, winRate, if_pos hpos, if_pos hpos', hrc]
    have hlen : (((t0 :: ts') ++ [t']).length : ℚ) = ((t0 :: ts').length : ℚ) + 1 := by
      push_cast [List.length_append, List.length_singleton]
      ring
    rw [hlen]
    set n : ℚ := ((t0 :: ts').length : ℚ) with hn
    set r : ℚ := (ruggedCount (t0 :: ts') : ℚ) with hr
    have hnpos : (0 : ℚ) < n := by
      rw [hn]
      exact_mod_cast hpos
    have hn1 : (0 : ℚ) < n + 1 := by linarith
    have hrn : r ≤ n := by
      rw [hn, hr]
      exact_mod_cast hr_le
    have hr0 : (0 : ℚ) ≤ r := by
      rw [hr]
      positivity
    rw [div_mul_eq_mul_div, div_mul_eq_mul_div, div_le_div_iff₀ hnpos hn1]
    nlinarith

/-- **C10.** Discovered tokens are created with `isRugged: false`; when
the lifecycle fetch fails even after all retries, the catch block assigns
status `Dead` and leaves `isRugged` false, so such a token is never
counted in `ruggedCount` and never lowers the deployer win rate. -/
theorem C10_analyzeDeployer_fetch_failure (address signature : String) (blockTime : ℤ)
    (name symbol : Option String) (age : ℤ) (t : DeployedToken)
    (h : t.isRugged = false) (ts : List DeployedToken) :
    (newDeployedToken address signature blockTime name symbol age).isRugged = false ∧
    (checkTokenLiquidityStep none t).status = TokenStatus.Dead ∧
    (checkTokenLiquidityStep none t).isRugged = false ∧
    ruggedCount (ts ++ [checkTokenLiquidityStep none t]) = ruggedCount ts ∧
    winRate ts ≤ winRate (ts ++ [checkTokenLiquidityStep none t]) := by
  have hc : countsAsRugged (checkTokenLiquidityStep none t) = false := by
    simp [checkTokenLiquidityStep, countsAsRugged, h]
  refine ⟨rfl, rfl, by simp [checkTokenLiquidityStep, h], ?_, ?_⟩
  · simp [ruggedCount, List.filter_append, hc]
  · exact winRate_append_not_rugged ts _ hc

/-- Concrete witness for C10: one failed-fetch token appended to an empty
history keeps the win rate at least as high. -/
theorem C10_witness :
    winRate [] ≤
      winRate ([] ++ [checkTokenLiquidityStep none
        (newDeployedToken "m" "s" 0 none none 0)]) :=
  (C10_analyzeDeployer_fetch_failure "m" "s" 0 none none 0 (newDeployedToken "m" "s" 0 none none 0) rfl []).2.2.2.2

/-! ## Claim C2: the risk score is always within [0, 100] -/

/-- **C2.** For every combination of authority status, metadata status and
optional liquidity signal, `calculateRiskScore` returns a score in
`[0, 100]`: it starts from the baseline 100, only subtracts fixed
non-negative penalties, and floors the result at 0. -/
theorem C2_calculateRiskScore_score_bounds (authorityStatus : AuthorityStatus)
    (metadataInfo : MetadataInfo) (liquidityInfo : Option LiquidityInfo) :
    0 ≤ (calculateRiskScore authorityStatus metadataInfo liquidityInfo).score ∧
    (calculateRiskScore authorityStatus metadataInfo liquidityInfo).score ≤ 100 := by
  rcases authorityStatus with ⟨⟨ma, maAddr⟩, ⟨fa, faAddr⟩⟩
  rcases metadataInfo with ⟨mm, ua, uri⟩
  rcases liquidityInfo with _ | ⟨hl, rl, w⟩
  · cases ma <;> cases fa <;> cases mm <;>
      simp [calculateRiskScore, configRiskScoring]
  · cases ma <;> cases fa <;> cases mm <;> cases rl <;>
      simp [calculateRiskScore, configRiskScoring, liquidityPenalty]

/-! ## Claim C9: unreadable metadata is treated as immutable -/

/-- **C9.** When the Metaplex metadata fetch fails, `checkMetadata` returns
`{ isMutable: false, updateAuthority: null }` instead of failing, and the
resulting risk score for such a token never includes the mutable-metadata
penalty: it equals the baseline minus only the authority and liquidity
penalties, floored at 0. -/
theorem C9_checkMetadata_failure_immutable :
    checkMetadata none =
      { isMutable := false, updateAuthority := none, uri := none } ∧
    ∀ (authorityStatus : AuthorityStatus) (liquidityInfo : Option LiquidityInfo),
      (calculateRiskScore authorityStatus (checkMetadata none) liquidityInfo).score =
        max 0 (100 -
          (if authorityStatus.mintAuthority.isActive then 50 else 0) -
          (if authorityStatus.freezeAuthority.isActive then 20 else 0) -
          (match liquidityInfo with
           | some liq => liquidityPenalty liq.riskLevel
           | none => 0)) := by
  refine ⟨rfl, ?_⟩
  intro authorityStatus liquidityInfo
  rcases authorityStatus with ⟨⟨ma, maAddr⟩, ⟨fa, faAddr⟩⟩
  rcases liquidityInfo with _ | ⟨hl, rl, w⟩
  · cases ma <;> cases fa <;>
      simp [calculateRiskScore, checkMetadata, configRiskScoring]
  · cases ma <;> cases fa <;> cases rl <;>
      simp [calculateRiskScore, checkMetadata, configRiskScoring, liquidityPenalty]

/-! ## Claim C6: the Gini coefficient -/
/-- `insertAsc` permutes. -/
lemma insertAsc_perm (x : ℚ) (l : List ℚ) : List.Perm (insertAsc x l) (x :: l) := by
  induction l with
  | nil => exact List.Perm.refl _
  | cons y rest ih =>
    by_cases h : x < y
    · simp [insertAsc, h]
    · simp only [insertAsc, if_neg h]
      exact (List.Perm.cons y ih).trans (List.Perm.swap x y rest)

/-- `sortAsc` is a permutation of its input. -/
lemma sortAsc_perm (l : List ℚ) : List.Perm (sortAsc l) l := by
  suffices h : ∀ (l acc : List ℚ),
      List.Perm (l.foldl (fun acc x => insertAsc x acc) acc) (acc ++ l) by
    simpa [sortAsc] using h l []
  intro l
  induction l with
  | nil => intro acc; simp
  | cons x rest ih =>
    intro acc
    have step1 : (x :: rest).foldl (fun acc x => insertAsc x acc) acc
        = rest.foldl (fun acc x => insertAsc x acc) (insertAsc x acc) := rfl
    rw [step1]
    refine (ih (insertAsc x acc)).trans ?_
    refine ((insertAsc_perm x acc).append_right rest).trans ?_
    exact List.perm_middle.symm

/-- On a constant list the Gini summation loop evaluates to
`b * m * (2i + m - n)` where `m` is the list length. -/
lemma giniSumAux_const : ∀ (l : List ℚ) (b n i : ℚ), (∀ x ∈ l, x = b) →
    giniSumAux n l i = b * (l.length : ℚ) * (2 * i + (l.length : ℚ) - n) := by
  intro l
  induction l with
  | nil => intro b n i h; simp [giniSumAux]
  | cons x rest ih =>
    intro b n i h
    have hx : x = b := h x (List.mem_cons_self x rest)
    have hr := ih b n (i + 1) (fun y hy => h y (List.mem_cons_of_mem x hy))
    simp only [giniSumAux, hx, hr, List.length_cons]
    push_cast
    ring

/-- **C6, amended.** For every non-empty list of non-negative balances
*with positive total*, `calculateGiniCoefficient` returns a value in
`[0, 1]`, and returns exactly 0 when all balances are equal.  (The
positive-total hypothesis is forced by the counterexample: an all-zero
list makes the source divide 0 by 0, producing NaN.) -/
theorem C6_amended (balances : List ℚ) (h1 : balances ≠ [])
    (h2 : ∀ b ∈ balances, 0 ≤ b) (h3 : 0 < balances.sum) :
    ∃ g, calculateGiniCoefficient balances = some g ∧ 0 ≤ g ∧ g ≤ 1 ∧
      ((∀ x ∈ balances, ∀ y ∈ balances, x = y) → g = 0) := by
  have hperm := sortAsc_perm balances
  have hlen : (sortAsc balances).length = balances.length := hperm.length_eq
  have hsum : (sortAsc balances).sum = balances.sum := hperm.sum_eq
  have hlenpos : 0 < balances.length := List.length_pos.mpr h1
  have hne : ((sortAsc balances).length : ℚ) * (sortAsc balances).sum ≠ 0 := by
    rw [hlen, hsum]
    exact mul_ne_zero (Nat.cast_ne_zero.mpr (by omega)) (ne_of_gt h3)
  simp only [calculateGiniCoefficient, if_neg (by omega : ¬ balances.length = 0),
    if_neg hne]
  refine ⟨_, rfl, le_max_left 0 _, max_le zero_le_one (min_le_left 1 _), ?_⟩
  intro hall
  rcases balances with _ | ⟨b0, rest⟩
  · exact absurd rfl h1
  · have hb : ∀ x ∈ sortAsc (b0 :: rest), x = b0 := by
      intro x hx
      exact hall x (hperm.mem_iff.mp hx) b0 (List.mem_cons_self b0 rest)
    rw [giniSumAux_const _ b0 _ 0 hb]
    simp

/-- **C6, counterexample.** On the non-empty, non-negative balance list
`[0]` the source computes `gini = 0 / (1 * 0) = NaN`, and
`Math.max(0, Math.min(1, NaN))` is `NaN`: the function returns no number
in `[0, 1]` at all (modelled as `none`), and in particular not 0 although
all balances are equal. -/
theorem C6_counterexample : calculateGiniCoefficient [0] = none := by
  simp [calculateGiniCoefficient, sortAsc, insertAsc, giniSumAux]

/-- Concrete witness for C6 (amended): the all-equal list `[2, 2]` yields
a Gini coefficient in `[0, 1]` that is 0. -/
theorem C6_witness :
    ∃ g, calculateGiniCoefficient [2, 2] = some g ∧ 0 ≤ g ∧ g ≤ 1 ∧
      ((∀ x ∈ ([2, 2] : List ℚ), ∀ y ∈ ([2, 2] : List ℚ), x = y) → g = 0) :=
  C6_amended [2, 2] (by simp) (by norm_num) (by norm_num)


/-! ## Claim C8: the retry helpers -/
/-- A successful attempt ends the retry loop at once. -/
lemma retryLoop_ok {α : Type} {fn : ℕ → Except JSError α} {r : JSError → Bool}
    {i fuel : ℕ} {v : α} (h : fn i = .ok v) :
    retryLoop r fn i (fuel + 1) = .ok v := by
  simp [retryLoop, h]

/-- A non-retryable error is rethrown immediately. -/
lemma retryLoop_error_stop {α : Type} {fn : ℕ → Except JSError α} {r : JSError → Bool}
    {i fuel : ℕ} {e : JSError} (h : fn i = .error e) (hr : r e = false) :
    retryLoop r fn i (fuel + 1) = .error e := by
  simp [retryLoop, h, hr]

/-- A retryable error with attempts remaining moves to the next attempt. -/
lemma retryLoop_error_step {α : Type} {fn : ℕ → Except JSError α} {r : JSError → Bool}
    {i fuel : ℕ} {e : JSError} (h : fn i = .error e) (hr : r e = true) :
    retryLoop r fn i (fuel + 2) = retryLoop r fn (i + 1) (fuel + 1) := by
  simp [retryLoop, h, hr]

/-- A retryable error on the last attempt is rethrown. -/
lemma retryLoop_error_exhaust {α : Type} {fn : ℕ → Except JSError α} {r : JSError → Bool}
    {i : ℕ} {e : JSError} (h : fn i = .error e) (hr : r e = true) :
    retryLoop r fn i 1 = .error e := by
  simp [retryLoop, h, hr]

/-- The retry loop only inspects attempts `i, i+1, ..., i+fuel-1`. -/
lemma retryLoop_congr {α : Type} {fn fn' : ℕ → Except JSError α} {r : JSError → Bool} :
    ∀ (fuel i : ℕ), (∀ j, i ≤ j → j < i + fuel → fn j = fn' j) →
      retryLoop r fn i fuel = retryLoop r fn' i fuel := by
  intro fuel
  induction fuel with
  | zero => intro i h; rfl
  | succ fuel ih =>
    intro i hagree
    have h0 : fn i = fn' i := hagree i le_rfl (by omega)
    simp only [retryLoop, h0]
    cases hfn : fn' i with
    | ok v => simp
    | error e =>
      simp only
      cases hr : r e with
      | false => simp [hr]
      | true =>
        simp only [hr, if_true]
        cases fuel with
        | zero => rfl
        | succ fuel' =>
          exact ih (i + 1) (fun j hj1 hj2 => hagree j (by omega) (by omega))

/-- **C8, amended.** Both retry helpers pass successes through, retry
rate-limit errors with at most 3 attempts (exhaustion rethrows the last
error), and propagate non-retryable errors immediately; the
cluster-analysis helper additionally retries timeout errors, while the
Developer Tracker helper propagates timeout errors immediately.  The
result depends on at most the first 3 attempts. -/
theorem C8_amended {α : Type} (fn fn' : ℕ → Except JSError α) (e : JSError) (v : α) :
    (fn 0 = .ok v →
      retryWithBackoffTracker fn 3 = .ok v ∧ retryWithBackoffCluster fn 3 = .ok v) ∧
    (fn 0 = .error e → isRateLimitError e = true → fn 1 = .ok v →
      retryWithBackoffTracker fn 3 = .ok v ∧ retryWithBackoffCluster fn 3 = .ok v) ∧
    (fn 0 = .error e → isTimeoutError e = true → isRateLimitError e = false →
      retryWithBackoffTracker fn 3 = .error e ∧
      (fn 1 = .ok v → retryWithBackoffCluster fn 3 = .ok v)) ∧
    (fn 0 = .error e → isRateLimitError e = false → isTimeoutError e = false →
      retryWithBackoffTracker fn 3 = .error e ∧
      retryWithBackoffCluster fn 3 = .error e) ∧
    ((∀ i, i < 3 → fn i = fn' i) →
      retryWithBackoffTracker fn 3 = retryWithBackoffTracker fn' 3 ∧
      retryWithBackoffCluster fn 3 = retryWithBackoffCluster fn' 3) ∧
    (∀ e2, fn 0 = .error e → fn 1 = .error e → fn 2 = .error e2 →
      isRateLimitError e = true → isRateLimitError e2 = true →
      retryWithBackoffTracker fn 3 = .error e2 ∧
      retryWithBackoffCluster fn 3 = .error e2) := by
  refine ⟨?_, ?_, ?_, ?_, ?_, ?_⟩
  · intro h0
    exact ⟨retryLoop_ok h0, retryLoop_ok h0⟩
  · intro h0 hrl h1
    constructor
    · rw [retryWithBackoffTracker, retryLoop_error_step h0 hrl]
      exact retryLoop_ok h1
    · rw [retryWithBackoffCluster, retryLoop_error_step h0 (by simp [hrl])]
      exact retryLoop_ok h1
  · intro h0 hto hrl
    constructor
    · exact retryLoop_error_stop h0 hrl
    · intro h1
      rw [retryWithBackoffCluster, retryLoop_error_step h0 (by simp [hto])]
      exact retryLoop_ok h1
  · intro h0 hrl hto
    exact ⟨retryLoop_error_stop h0 hrl, retryLoop_error_stop h0 (by simp [hrl, hto])⟩
  · intro hagree
    constructor
    · exact retryLoop_congr 3 0 (fun j hj1 hj2 => hagree j (by omega))
    · exact retryLoop_congr 3 0 (fun j hj1 hj2 => hagree j (by omega))
  · intro e2 h0 h1 h2 hrl hrl2
    constructor
    · rw [retryWithBackoffTracker, retryLoop_error_step h0 hrl,
        retryLoop_error_step h1 hrl]
      exact retryLoop_error_exhaust h2 hrl2
    · rw [retryWithBackoffCluster, retryLoop_error_step h0 (by simp [hrl]),
        retryLoop_error_step h1 (by simp [hrl])]
      exact retryLoop_error_exhaust h2 (by simp [hrl2])

/-- **C8, counterexample.** An attempt sequence that fails once with a
timeout error and then succeeds: the Developer Tracker helper does *not*
retry it (it rethrows the timeout immediately), while the cluster-analysis
helper retries and succeeds — contradicting the claim that both helpers
retry on timeout errors. -/
theorem C8_counterexample :
    retryWithBackoffTracker timeoutThenOk 3 = .error { message := "timeout" } ∧
    retryWithBackoffCluster timeoutThenOk 3 = .ok 42 ∧
    isTimeoutError { message := "timeout" } = true ∧
    isRateLimitError { message := "timeout" } = false :=
  ⟨rfl, rfl, rfl, rfl⟩

/-- Concrete witness for C8 (amended): a rate-limit failure followed by a
success is retried to success by both helpers. -/
theorem C8_witness :
    retryWithBackoffTracker rateLimitThenOk 3 = .ok 7 ∧
    retryWithBackoffCluster rateLimitThenOk 3 = .ok 7 :=
  (C8_amended rateLimitThenOk rateLimitThenOk { message := "HTTP 429" } 7).2.1 rfl rfl rfl

/-! ## Claim C3: lifecycle classification of discovered tokens -/

/-- **C3, counterexample.** With a revoked mint authority, positive supply
and an *empty* fetched largest-accounts list, the code marks the token
`Rugged`, although none of the three Rugged conditions of the claim holds (in
particular there is no largest holder at all). -/
theorem C3_counterexample :
    (classifyTokenLiquidity ⟨none, 100⟩ []
        (newDeployedToken "m" "s" 0 none none 0)).status = TokenStatus.Rugged ∧
    ¬ specC3RuggedCondition ⟨none, 100⟩ [] := by
  constructor
  · simp [classifyTokenLiquidity]
  · simp [specC3RuggedCondition]

/-- **C3, amended.** The classifier marks a token `Rugged` exactly when
the Rugged condition of the spec holds *or the fetched largest-accounts list is
empty*; `Dead` exactly when none of those hold and the largest holder
controls strictly more than 80% (hence, by the Rugged case, at most 95%);
and `Active` otherwise (largest holder at 80% or below — the 80% boundary
itself is Active, not Dead). -/
theorem C3_amended (mintInfo : MintState) (largestAmounts : List ℕ)
    (t : DeployedToken) :
    ((classifyTokenLiquidity mintInfo largestAmounts t).status = .Rugged ↔
      specC3RuggedCondition mintInfo largestAmounts ∨ largestAmounts = []) ∧
    ((classifyTokenLiquidity mintInfo largestAmounts t).status = .Dead ↔
      ¬(specC3RuggedCondition mintInfo largestAmounts ∨ largestAmounts = []) ∧
      ∃ top rest, largestAmounts = top :: rest ∧
        80 < (top : ℚ) / (mintInfo.supply : ℚ) * 100) ∧
    ((classifyTokenLiquidity mintInfo largestAmounts t).status = .Active ↔
      ¬(specC3RuggedCondition mintInfo largestAmounts ∨ largestAmounts = []) ∧
      ∀ top rest, largestAmounts = top :: rest →
        (top : ℚ) / (mintInfo.supply : ℚ) * 100 ≤ 80) := by
  rcases mintInfo with ⟨auth, supply⟩
  by_cases hA : (auth ≠ none ∧ auth ≠ some PUMPFUN_MINT_AUTHORITY)
  · simp [classifyTokenLiquidity, specC3RuggedCondition, hA]
  · by_cases hS : supply = 0
    · simp [classifyTokenLiquidity, specC3RuggedCondition, hA, hS]
    · rcases largestAmounts with _ | ⟨top, rest⟩
      · simp [classifyTokenLiquidity, specC3RuggedCondition, hA, hS]
      · by_cases h95 : (top : ℚ) / (supply : ℚ) * 100 > 95
        · simp [classifyTokenLiquidity, specC3RuggedCondition, hA, hS, h95]
        · by_cases h80 : (top : ℚ) / (supply : ℚ) * 100 > 80
          · simp [classifyTokenLiquidity, specC3RuggedCondition, hA, hS, h95, h80]
          · simp [classifyTokenLiquidity, specC3RuggedCondition, hA, hS, h95, h80]
            linarith

/-- Concrete witness for C3 (amended): a 96% top holder is classified
`Rugged`. -/
theorem C3_witness :
    (classifyTokenLiquidity ⟨none, 100⟩ [96, 4]
        (newDeployedToken "m" "s" 0 none none 0)).status = TokenStatus.Rugged :=
  (C3_amended ⟨none, 100⟩ [96, 4] (newDeployedToken "m" "s" 0 none none 0)).1.mpr
    (Or.inl (Or.inr (Or.inr ⟨96, [4], rfl, by norm_num⟩)))

/-! ## Claim C4: the suspicious-cluster filter -/

/-- **C4.** `identifySuspiciousClusters` returns exactly the clusters with
at least 2 holders, a funder outside both the known-exchange and
known-mixer sets, and at least 5% aggregate percentage.  The hypotheses
record that the stored flags of the cluster agree with set membership of its
funder, which holds for every cluster built by the pipeline (the flags are
copied from `isCEXWallet`/`isMixerWallet` of the funder). -/
theorem C4_identifySuspiciousClusters_iff (clusters : List ClusterInfo)
    (c : ClusterInfo)
    (hC : c.isCEX = isCEXWallet c.funder)
    (hM : c.isMixer = isMixerWallet c.funder) :
    c ∈ identifySuspiciousClusters clusters ↔
      c ∈ clusters ∧ 2 ≤ c.holderCount ∧
      c.funder ∉ CEX_WALLETS ∧ c.funder ∉ MIXER_WALLETS ∧
      (5 : ℚ) ≤ c.totalPercentage := by
  simp only [identifySuspiciousClusters, List.mem_filter, Bool.and_eq_true,
    Bool.not_eq_true', decide_eq_true_eq, hC, hM, isCEXWallet, isMixerWallet,
    decide_eq_false_iff_not]
  tauto

/-- Concrete witness for C4: a two-holder, 15% cluster funded outside the
known sets is reported suspicious. -/
theorem C4_witness :
    (⟨"FND", [⟨"w1", 10, 10, 1, "s1"⟩, ⟨"w2", 5, 5, 2, "s2"⟩], 15, 15, 2,
        false, false⟩ : ClusterInfo) ∈
      identifySuspiciousClusters
        [⟨"FND", [⟨"w1", 10, 10, 1, "s1"⟩, ⟨"w2", 5, 5, 2, "s2"⟩], 15, 15, 2,
          false, false⟩] := by
  refine (C4_identifySuspiciousClusters_iff _ _ (by decide) (by decide)).mpr
    ⟨List.mem_singleton.mpr rfl, by decide, by decide, by decide, by norm_num⟩

/-! ## Claim C5: cluster risk level is monotone in the largest suspicious
cluster percentage -/

/-- **C5.** `calculateRiskLevel` is a monotone function of the first
(largest) suspicious cluster aggregate percentage, with thresholds
`>30` Critical, `>20` High, `>10` Medium, otherwise Low, and Low when no
suspicious cluster exists: increasing that percentage, holding everything
else fixed, never moves the level backward. -/
theorem C5_calculateRiskLevel_monotone (c c' : ClusterInfo)
    (rest : List ClusterInfo) (tp tp' : ℚ)
    (h : c.totalPercentage ≤ c'.totalPercentage) :
    clusterRiskRank (calculateRiskLevel (c :: rest) tp) ≤
      clusterRiskRank (calculateRiskLevel (c' :: rest) tp') ∧
    calculateRiskLevel [] tp = .Low ∧
    (calculateRiskLevel (c :: rest) tp = .Critical ↔ 30 < c.totalPercentage) ∧
    (calculateRiskLevel (c :: rest) tp = .High ↔
      20 < c.totalPercentage ∧ c.totalPercentage ≤ 30) ∧
    (calculateRiskLevel (c :: rest) tp = .Medium ↔
      10 < c.totalPercentage ∧ c.totalPercentage ≤ 20) ∧
    (calculateRiskLevel (c :: rest) tp = .Low ↔ c.totalPercentage ≤ 10) := by
  refine ⟨?_, rfl, ?_, ?_, ?_, ?_⟩
  · simp only [calculateRiskLevel, gt_iff_lt]
    split_ifs <;> simp only [clusterRiskRank] <;>
      first | omega | linarith | (exfalso; linarith)
  · simp only [calculateRiskLevel, gt_iff_lt]
    split_ifs <;> simp_all
  · simp only [calculateRiskLevel, gt_iff_lt]
    split_ifs <;> simp_all <;>
      first
      | linarith
      | (constructor <;> linarith)
      | (intro hx; linarith)
  · simp only [calculateRiskLevel, gt_iff_lt]
    split_ifs <;> simp_all <;>
      first
      | linarith
      | (constructor <;> linarith)
      | (intro hx; linarith)
  · simp only [calculateRiskLevel, gt_iff_lt]
    split_ifs <;> simp_all <;>
      first
      | linarith
      | (constructor <;> linarith)
      | (intro hx; linarith)

/-- Concrete witness for C5: a 15% largest suspicious cluster rates no
higher than a 35% one. -/
theorem C5_witness :
    clusterRiskRank
        (calculateRiskLevel [⟨"F", [], 15, 15, 2, false, false⟩] 15) ≤
      clusterRiskRank
        (calculateRiskLevel [⟨"F", [], 35, 35, 2, false, false⟩] 35) :=
  (C5_calculateRiskLevel_monotone ⟨"F", [], 15, 15, 2, false, false⟩
    ⟨"F", [], 35, 35, 2, false, false⟩ [] 15 35 (by norm_num)).1

end Validex
